import Mathlib

/-!
Formal model of the ddns6 daemon's address-synthesis and change-orchestration
core, shallowly embedded from the Rust sources (src/ipv6.rs, src/state.rs,
src/dyndns2.rs, src/config.rs, src/error.rs).

Machine integers are modelled as `Nat` with explicit truncation where the Rust
code can wrap (u8 shifts).  An `Ipv6Addr` is modelled by its sixteen octets,
as a function `Fin 16 → Nat` (each value < 256 for well-formed addresses).
Fallible Rust functions returning `Result` are modelled with `Except` over an
embedding of the `Ddns6Error` enum.
-/

namespace Ddns6

/-- The sixteen octets of an `Ipv6Addr` (Rust `[u8; 16]`, `Ipv6Addr::octets`). -/
abbrev Bytes16 := Fin 16 → Nat

/-! ### Embedding of Rust `core::net::parser` for `Ipv6Addr::from_str`

The repository calls `str::parse::<Ipv6Addr>()` (in `parse_interface_id`,
`extract_ipv6_address` and config validation).  The definitions below embed
the address parser of Rust's standard library (`core/src/net/parser.rs`):
`read_number`, `read_given_char`, `read_separator`, `read_ipv4_addr`,
`read_groups` and `read_ipv6_addr`, with the final end-of-input check of
`parse_str`.  Parsers are pure functions on `List Char` returning
`Option (result × remaining input)`; Rust's `read_atomically` backtracking
corresponds to returning `none` while the caller keeps the original input. -/

/-- Rust `char::to_digit(radix)`. -/
def charDigit? (radix : Nat) (c : Char) : Option Nat :=
  let v : Option Nat :=
    if '0' ≤ c ∧ c ≤ '9' then some (c.toNat - '0'.toNat)
    else if 'a' ≤ c ∧ c ≤ 'z' then some (c.toNat - 'a'.toNat + 10)
    else if 'A' ≤ c ∧ c ≤ 'Z' then some (c.toNat - 'A'.toNat + 10)
    else none
  match v with
  | some d => if d < radix then some d else none
  | none => none

/-- Rust `Parser::read_number(radix, max_digits, allow_zero_prefix)` on an
unsigned type with maximal value `cap` (`u8`: 255, `u16`: 65535): reads the
maximal run of digits of the radix; fails on an empty run, on more than
`maxDigits` digits (Rust fails inside the loop once the count exceeds the
limit), on a disallowed leading zero, or when the accumulated value overflows
the target type (Rust's `checked_mul`/`checked_add`, which fail iff the final
value exceeds `cap` because the accumulator is monotone). -/
def readNumber (radix maxDigits cap : Nat) (allowZero : Bool) (s : List Char) :
    Option (Nat × List Char) :=
  let ds := s.takeWhile (fun c => (charDigit? radix c).isSome)
  let rest := s.dropWhile (fun c => (charDigit? radix c).isSome)
  if ds.isEmpty then none
  else if maxDigits < ds.length then none
  else if !allowZero && ds.head? = some '0' && 1 < ds.length then none
  else
    let v := ds.foldl (fun acc c => acc * radix + ((charDigit? radix c).getD 0)) 0
    if cap < v then none else some (v, rest)

/-- Rust `Parser::read_given_char`. -/
def readGivenChar (c : Char) (s : List Char) : Option (List Char) :=
  match s with
  | [] => none
  | c' :: rest => if c' = c then some rest else none

/-- Rust `Parser::read_separator(sep, index, inner)`: no separator before the
first element (`index == 0`), a mandatory `sep` before every later one;
atomic as a whole. -/
def readSep {α : Type} (sep : Char) (first : Bool)
    (inner : List Char → Option (α × List Char)) (s : List Char) :
    Option (α × List Char) :=
  if first then inner s
  else
    match readGivenChar sep s with
    | some s' => inner s'
    | none => none

/-- Rust `Parser::read_ipv4_addr`: four `.`-separated decimal octets, at most
three digits each, no leading zeros, each at most 255. -/
def readIpv4 (s : List Char) : Option ((Nat × Nat × Nat × Nat) × List Char) :=
  match readSep '.' true (readNumber 10 3 255 false) s with
  | none => none
  | some (a, s1) =>
    match readSep '.' false (readNumber 10 3 255 false) s1 with
    | none => none
    | some (b, s2) =>
      match readSep '.' false (readNumber 10 3 255 false) s2 with
      | none => none
      | some (c, s3) =>
        match readSep '.' false (readNumber 10 3 255 false) s3 with
        | none => none
        | some (d, s4) => some ((a, b, c, d), s4)

/-- Rust's `read_groups(p, groups)` over a slot slice of length `n + index`,
written with the remaining slot count as the recursion measure.  `first`
records whether we are at slice index 0 (no `:` separator expected).  At every
position with at least two slots left it first attempts a trailing embedded
IPv4 address (which fills two 16-bit groups and ends the loop with the flag
set), then a 1-4 digit hexadecimal group.  Returns the parsed groups (count =
Rust's returned size), the embedded-IPv4 flag, and the remaining input. -/
def readGroupsAux : Nat → Bool → List Char → (List Nat × Bool × List Char)
  | 0, _, s => ([], false, s)
  | n + 1, first, s =>
    match (if 1 ≤ n then readSep ':' first readIpv4 s else none) with
    | some ((o1, o2, o3, o4), rest) =>
      ([256 * o1 + o2, 256 * o3 + o4], true, rest)
    | none =>
      match readSep ':' first (readNumber 16 4 65535 true) s with
      | some (g, rest) =>
        let (gs, flag, rest') := readGroupsAux n false rest
        (g :: gs, flag, rest')
      | none => ([], false, s)

/-- Rust `Parser::read_ipv6_addr`: up to eight leading groups; a full head of
eight groups is the address; otherwise an embedded IPv4 part must not occur
before `::`, a literal `::` follows, and the tail groups (at most
`8 - head - 1`) fill the low end with zero groups in between. -/
def readIpv6 (s : List Char) : Option (List Nat × List Char) :=
  let (head, headIpv4, rest) := readGroupsAux 8 true s
  if head.length = 8 then some (head, rest)
  else if headIpv4 then none
  else
    match readGivenChar ':' rest with
    | none => none
    | some r1 =>
      match readGivenChar ':' r1 with
      | none => none
      | some r2 =>
        let limit := 8 - (head.length + 1)
        let (tail, _, rest') := readGroupsAux limit true r2
        some (head ++ List.replicate (8 - head.length - tail.length) 0 ++ tail, rest')

/-- Rust `Ipv6Addr::from_str` up to the final representation: the eight 16-bit
groups, requiring the whole string to be consumed (`Parser::parse_with` eof
check). -/
def parseIpv6Groups (s : List Char) : Option (List Nat) :=
  match readIpv6 s with
  | some (gs, []) => some gs
  | _ => none

/-- Big-endian conversion of the eight 16-bit groups to the sixteen octets
(Rust `Ipv6Addr::new` / `Ipv6Addr::octets`). -/
def groupsToBytes (gs : List Nat) : Bytes16 :=
  fun i =>
    if i.val % 2 = 0 then gs.getD (i.val / 2) 0 / 256 else gs.getD (i.val / 2) 0 % 256

/-- Rust `s.parse::<Ipv6Addr>()`, producing the octets. -/
def parseIpv6 (s : String) : Option Bytes16 :=
  (parseIpv6Groups s.toList).map groupsToBytes

/-- Decidable equality for `Except`, used to evaluate the model on concrete
inputs. -/
instance {ε α : Type} [DecidableEq ε] [DecidableEq α] : DecidableEq (Except ε α) :=
  fun a b =>
    match a, b with
    | .ok x, .ok y => decidable_of_iff (x = y) (by simp)
    | .error x, .error y => decidable_of_iff (x = y) (by simp)
    | .ok _, .error _ => isFalse (fun h => Except.noConfusion h)
    | .error _, .ok _ => isFalse (fun h => Except.noConfusion h)

/-! ### Embedding of src/error.rs -/

/-- Rust `Ddns6Error` (src/error.rs).  The `HttpRequest` and `Io` variants wrap
foreign error values (`reqwest::Error`, `std::io::Error`); they are modelled by
their display message. -/
inductive Ddns6Error where
  | Config (msg : String)
  | Ipv6Parse (msg : String)
  | HostnameNotFound (msg : String)
  | InvalidInterfaceId (msg : String)
  | CloudflareApi (msg : String)
  | HttpRequest (msg : String)
  | InvalidDynDns2Request (msg : String)
  | State (msg : String)
  | Io (msg : String)
deriving DecidableEq, Repr

/-! ### Embedding of src/ipv6.rs -/

/-- Rust `parse_interface_id` (src/ipv6.rs lines 72-91): try the token as a
full `Ipv6Addr` literal, then embedded after the documentation-range
placeholder (`format!("2001:db8::{}", iid)`), then embedded after the
IPv4-mapped placeholder (`format!("::ffff:{}", iid)`); first success wins,
otherwise `InvalidInterfaceId`. -/
def parse_interface_id (iid : String) : Except Ddns6Error Bytes16 :=
  match parseIpv6 iid with
  | some addr => .ok addr
  | none =>
    match parseIpv6 ("2001:db8::" ++ iid) with
    | some addr => .ok addr
    | none =>
      match parseIpv6 ("::ffff:" ++ iid) with
      | some addr => .ok addr
      | none => .error (.InvalidInterfaceId ("Could not parse interface ID: " ++ iid))

/-- Rust `struct Ipv6Prefix { addr: Ipv6Addr, prefix_len: u8 }` (src/ipv6.rs). -/
structure Ipv6Prefix where
  addr : Bytes16
  prefix_len : Nat

instance : DecidableEq Ipv6Prefix := fun a b =>
  decidable_of_iff (a.addr = b.addr ∧ a.prefix_len = b.prefix_len)
    (by cases a; cases b; simp)

/-- The u8 mask `(!0u8) << (8 - m)` used for a partial byte keeping its top
`m` bits (src/ipv6.rs line 60; also ipnet's per-byte netmask). -/
def maskU8 (m : Nat) : Nat := (255 <<< (8 - m)) % 256

/-- `ipnet::Ipv6Net::network()`: the address with every bit at or beyond the
prefix length cleared.  Octet `i` keeps its top `len - 8*i` bits (all eight
when the octet lies wholly inside the prefix, none when wholly outside). -/
def network16 (a : Bytes16) (len : Nat) : Bytes16 :=
  fun i => a i &&& maskU8 (len - 8 * i.val)

/-- Rust `Ipv6Prefix::from_address` (src/ipv6.rs lines 18-33): reject a prefix
length above 128 with an `Ipv6Parse` error, otherwise store the network
address from `Ipv6Net::new(addr, prefix_len).network()` (`Ipv6Net::new` itself
only fails for a length above 128, which is already excluded). -/
def Ipv6Prefix.from_address (a : Bytes16) (len : Nat) : Except Ddns6Error Ipv6Prefix :=
  if 128 < len then
    .error (.Ipv6Parse ("Invalid prefix length: " ++ toString len))
  else
    .ok ⟨network16 a len, len⟩

/-- Rust `Ipv6Prefix::extract_from_address` (src/ipv6.rs lines 35-37). -/
def Ipv6Prefix.extract_from_address (a : Bytes16) (default_len : Nat) :
    Except Ddns6Error Ipv6Prefix :=
  Ipv6Prefix.from_address a default_len

/-- The byte splice of `combine_with_interface_id` (src/ipv6.rs lines 50-66):
whole prefix octets below the boundary octet `prefix_len / 8`; when
`prefix_len` is not a multiple of 8 the boundary octet blends the prefix's top
`prefix_len % 8` bits with the interface identifier's remaining bits and the
octets above come from the interface identifier; when it is a multiple of 8,
a straight copy split at the boundary. -/
def spliceByte (len pb ib idx : Nat) : Nat :=
  if idx < len / 8 then pb
  else if len % 8 ≠ 0 then
    if idx = len / 8 then
      (pb &&& maskU8 (len % 8)) ||| (ib &&& (255 ^^^ maskU8 (len % 8)))
    else ib
  else ib

/-- The splice applied to all sixteen octets. -/
def spliceAddr (pa ia : Bytes16) (len : Nat) : Bytes16 :=
  fun i => spliceByte len (pa i) (ia i) i.val

/-- Rust `Ipv6Prefix::combine_with_interface_id` (src/ipv6.rs lines 47-69):
parse the token, then splice the stored network address with the parsed
interface identifier at the prefix length. -/
def Ipv6Prefix.combine_with_interface_id (p : Ipv6Prefix) (interface_id : String) :
    Except Ddns6Error Bytes16 :=
  match parse_interface_id interface_id with
  | .error e => .error e
  | .ok iid_addr => .ok (spliceAddr p.addr iid_addr p.prefix_len)

/-- Bit `i` (network order: bit 0 is the most significant bit of octet 0) of
an address. -/
def addrBit (a : Bytes16) (i : Fin 128) : Bool :=
  Nat.testBit (a ⟨i.val / 8, by have h := i.isLt; omega⟩) (7 - i.val % 8)

/-! ### Embedding of src/state.rs -/

/-- Rust `HostState` (src/state.rs): last known address and last-updated
timestamp (`SystemTime` modelled as a `Nat` instant). -/
structure HostState where
  ipv6_address : Bytes16
  last_updated : Nat

instance : DecidableEq HostState := fun a b =>
  decidable_of_iff (a.ipv6_address = b.ipv6_address ∧ a.last_updated = b.last_updated)
    (by cases a; cases b; simp)

/-- Rust `StateCache`: the lock-guarded `HashMap<String, HostState>`,
modelled as its lookup function.  The lock itself is a concurrency artefact
with no effect on the sequential contract modelled here. -/
abbrev StateCache := String → Option HostState

/-- Rust `StateCache::has_changed` (src/state.rs lines 31-37): true when the
hostname has no entry or the stored address differs from the candidate.  A
`&self` read-lock method: it cannot mutate the map, which the embedding
reflects by being a pure function of the cache. -/
def StateCache.has_changed (cache : StateCache) (hostname : String)
    (new_address : Bytes16) : Bool :=
  match cache hostname with
  | some st => decide (st.ipv6_address ≠ new_address)
  | none => true

/-- Rust `StateCache::update` (src/state.rs lines 39-48): insert or overwrite
the entry with the new address and the current time `now`. -/
def StateCache.update (cache : StateCache) (hostname : String)
    (ipv6_address : Bytes16) (now : Nat) : StateCache :=
  fun k => if k = hostname then some ⟨ipv6_address, now⟩ else cache k

/-! ### Embedding of src/config.rs (the part the orchestrator consumes) -/

/-- Rust `HostMapping` (src/config.rs lines 32-36). -/
structure HostMapping where
  hostname : String
  interface_id : String
deriving DecidableEq

/-! ### Embedding of src/dyndns2.rs -/

/-- Rust `DynDns2Response` (src/dyndns2.rs lines 29-38). -/
inductive DynDns2Response where
  | Good (hosts : List String)
  | NoChg (hosts : List String)
  | PartialSuccess (success failed : List String)
  | BadAgent
  | Abuse
  | Error (msg : String)
deriving DecidableEq, Repr

/-- Rust `impl IntoResponse for DynDns2Response` (src/dyndns2.rs lines 40-62):
HTTP status (`StatusCode::OK` = 200 in every case) and response body. -/
def DynDns2Response.into_response : DynDns2Response → Nat × String
  | .Good hosts => (200, "good " ++ String.intercalate ", " hosts)
  | .NoChg hosts => (200, "nochg " ++ String.intercalate ", " hosts)
  | .PartialSuccess success failed =>
    (200, "partial success: " ++ String.intercalate ", " success
      ++ " | failed: " ++ String.intercalate ", " failed)
  | .BadAgent => (200, "badagent")
  | .Abuse => (200, "abuse")
  | .Error msg => (200, "911 " ++ msg)

/-- Rust `extract_ipv6_address` (src/dyndns2.rs lines 183-188): parse the
request's `prefix` query parameter as an `Ipv6Addr`. -/
def extract_ipv6_address (prefixParam : String) : Except Ddns6Error Bytes16 :=
  match parseIpv6 prefixParam with
  | some addr => .ok addr
  | none => .error (.Ipv6Parse "Failed to parse prefix parameter")

/-- Observable outcome of the per-host loop of `handle_update` (src/dyndns2.rs
lines 96-158): the three accumulator vectors, the cache after the loop, and
the sequence of Cloudflare `update_aaaa_record` invocations made (hostname
and address), in processing order. -/
structure LoopResult where
  updated : List String
  unchanged : List String
  failed : List String
  cache : StateCache
  calls : List (String × Bytes16)

/-- The per-host loop of `handle_update` (src/dyndns2.rs lines 100-158),
processing the configured hosts in order.  The external collaborators are
parameters: `provider h a` is the success of
`cloudflare_client.update_aaaa_record(h, a)`, `fmt` is the `Display`
rendering of an `Ipv6Addr` (used by `format!("{}={}", hostname, addr)`), and
`now` is the clock instant recorded by `StateCache::update`.  Per host:
synthesis failure pushes the hostname to `failed` and continues; an unchanged
address pushes `hostname=addr` to `unchanged` with no provider call; otherwise
the provider is invoked, on success the cache is updated and `hostname=addr`
pushed to `updated`, on failure the hostname is pushed to `failed` and the
cache left untouched. -/
def processHosts (pfx : Ipv6Prefix) (provider : String → Bytes16 → Bool)
    (fmt : Bytes16 → String) (now : Nat) :
    List HostMapping → StateCache → LoopResult
  | [], cache => ⟨[], [], [], cache, []⟩
  | host :: rest, cache =>
    match pfx.combine_with_interface_id host.interface_id with
    | .error _ =>
      let r := processHosts pfx provider fmt now rest cache
      { r with failed := host.hostname :: r.failed }
    | .ok final_address =>
      if StateCache.has_changed cache host.hostname final_address then
        if provider host.hostname final_address then
          let cache' := StateCache.update cache host.hostname final_address now
          let r := processHosts pfx provider fmt now rest cache'
          { r with
              updated := (host.hostname ++ "=" ++ fmt final_address) :: r.updated,
              calls := (host.hostname, final_address) :: r.calls }
        else
          let r := processHosts pfx provider fmt now rest cache
          { r with
              failed := host.hostname :: r.failed,
              calls := (host.hostname, final_address) :: r.calls }
      else
        let r := processHosts pfx provider fmt now rest cache
        { r with unchanged := (host.hostname ++ "=" ++ fmt final_address) :: r.unchanged }

/-- The aggregation tail of `handle_update` (src/dyndns2.rs lines 160-181):
failures and updates together give `PartialSuccess`; failures alone give
`Error` over the failed hostnames; updates alone give `Good`; otherwise
`NoChg` over the unchanged hosts. -/
def aggregateResult (updated unchanged failed : List String) : DynDns2Response :=
  if !failed.isEmpty && !updated.isEmpty then
    .PartialSuccess updated failed
  else if !failed.isEmpty then
    .Error ("Failed to update: " ++ String.intercalate ", " failed)
  else if !updated.isEmpty then
    .Good updated
  else
    .NoChg unchanged

/-- Rust `handle_update` (src/dyndns2.rs lines 64-181).  State passing makes
the side effects explicit: the result is the response together with the cache
after the request and the provider calls made.  An unparseable `prefix`
parameter returns `911 Invalid IPv6 address` before anything else; a failed
prefix extraction returns `911 Failed to extract prefix`; otherwise the
prefix is derived once with length 64 and the per-host loop runs over all
configured hosts, followed by the aggregation tail. -/
def handle_update (hosts : List HostMapping) (cache : StateCache)
    (provider : String → Bytes16 → Bool) (fmt : Bytes16 → String) (now : Nat)
    (prefixParam : String) : DynDns2Response × StateCache × List (String × Bytes16) :=
  match extract_ipv6_address prefixParam with
  | .error _ => (.Error "Invalid IPv6 address", cache, [])
  | .ok client_ipv6 =>
    match Ipv6Prefix.extract_from_address client_ipv6 64 with
    | .error _ => (.Error "Failed to extract prefix", cache, [])
    | .ok pfx =>
      let r := processHosts pfx provider fmt now hosts cache
      (aggregateResult r.updated r.unchanged r.failed, r.cache, r.calls)

/-! ### Helper lemmas -/

/-- The partial-byte mask keeps exactly the top `m` bits of an octet:
bit `j` (LSB order, `j < 8`) is set iff `8 - m ≤ j`. -/
theorem testBit_maskU8 {m j : Nat} (hj : j < 8) :
    Nat.testBit (maskU8 m) j = decide (8 - m ≤ j) := by
  rcases le_or_lt m 8 with hm | hm
  · unfold maskU8
    interval_cases m <;> interval_cases j <;> decide
  · have h0 : 8 - m = 0 := by omega
    unfold maskU8
    rw [h0]
    interval_cases j <;> decide

/-- A blended octet `(a &&& mask) ||| (b &&& !mask)` takes bit `j` from `a`
in the masked (high) region and from `b` elsewhere. -/
theorem testBit_blend {a b m j : Nat} (hj : j < 8) :
    Nat.testBit ((a &&& maskU8 m) ||| (b &&& (255 ^^^ maskU8 m))) j
      = if 8 - m ≤ j then Nat.testBit a j else Nat.testBit b j := by
  have h255 : Nat.testBit 255 j = true := by interval_cases j <;> decide
  rw [Nat.testBit_or, Nat.testBit_and, Nat.testBit_and, Nat.testBit_xor,
    testBit_maskU8 hj, h255]
  by_cases h : 8 - m ≤ j
  · simp [h]
  · simp [h]

/-- Reading bit `7 - r` (network bit `r` of the octet) of a spliced octet at
byte index `b`: the bit comes from the prefix octet when the absolute bit
position `8*b + r` lies below the prefix length, from the interface-id octet
otherwise. -/
theorem testBit_spliceByte (len b r pb ib : Nat) (hr : r < 8) :
    Nat.testBit (spliceByte len pb ib b) (7 - r) =
      if 8 * b + r < len then Nat.testBit pb (7 - r) else Nat.testBit ib (7 - r) := by
  unfold spliceByte
  split
  next h1 => rw [if_pos (by omega)]
  next h1 =>
    split
    next h2 =>
      split
      next h3 =>
        rw [testBit_blend (show 7 - r < 8 by omega)]
        by_cases hlt : 8 * b + r < len
        · rw [if_pos (by omega), if_pos hlt]
        · rw [if_neg (by omega), if_neg hlt]
      next h3 => rw [if_neg (by omega)]
    next h2 => rw [if_neg (by omega)]

/-- Bitwise reading of the splice: every bit strictly below the prefix length
comes from the prefix operand, every bit at or beyond it from the
interface-identifier operand. -/
theorem addrBit_spliceAddr (pa ia : Bytes16) (len : Nat) (i : Fin 128) :
    addrBit (spliceAddr pa ia len) i =
      if i.val < len then addrBit pa i else addrBit ia i := by
  unfold addrBit spliceAddr
  show Nat.testBit
      (spliceByte len (pa ⟨i.val / 8, by omega⟩) (ia ⟨i.val / 8, by omega⟩) (i.val / 8))
      (7 - i.val % 8) =
    if i.val < len then Nat.testBit (pa ⟨i.val / 8, by omega⟩) (7 - i.val % 8)
    else Nat.testBit (ia ⟨i.val / 8, by omega⟩) (7 - i.val % 8)
  rw [testBit_spliceByte len (i.val / 8) (i.val % 8) _ _ (by omega)]
  have h8 : 8 * (i.val / 8) + i.val % 8 = i.val := by omega
  rw [h8]

/-- Absorbing a second application of the same mask: `(x &&& m) &&& m = x &&& m`. -/
theorem and_mask_self (x m : Nat) : (x &&& m) &&& m = x &&& m :=
  Nat.eq_of_testBit_eq fun j => by
    simp only [Nat.testBit_and]
    cases Nat.testBit x j <;> cases Nat.testBit m j <;> rfl

/-! ### Claim theorems -/

/-- Claim C1: for every network prefix with length 0-128 and every
interface-identifier token that parses, `combine_with_interface_id` returns
the address whose bits below the prefix length are the prefix's bits and
whose bits at or beyond it are the parsed interface identifier's bits; when
the length is not a multiple of 8 the single boundary byte is
`(prefixByte &&& mask) ||| (iidByte &&& !mask)` with
`mask = 0xFF <<< (8 - len % 8)` (as u8), and when it is a multiple of 8 the
result is a straight byte-wise copy split at byte index `len / 8`. -/
theorem claim1_combine_bit_splice (p : Ipv6Prefix) (tok : String) (iidA : Bytes16)
    (hlen : p.prefix_len ≤ 128)
    (hparse : parse_interface_id tok = .ok iidA) :
    ∃ r, p.combine_with_interface_id tok = .ok r ∧
      (∀ i : Fin 128, addrBit r i =
        if i.val < p.prefix_len then addrBit p.addr i else addrBit iidA i) ∧
      (p.prefix_len % 8 ≠ 0 →
        ∀ h16 : p.prefix_len / 8 < 16,
          r ⟨p.prefix_len / 8, h16⟩ =
            (p.addr ⟨p.prefix_len / 8, h16⟩ &&& maskU8 (p.prefix_len % 8)) |||
              (iidA ⟨p.prefix_len / 8, h16⟩ &&& (255 ^^^ maskU8 (p.prefix_len % 8)))) ∧
      (p.prefix_len % 8 = 0 →
        ∀ i : Fin 16, r i = if i.val < p.prefix_len / 8 then p.addr i else iidA i) := by
  refine ⟨spliceAddr p.addr iidA p.prefix_len, ?_, ?_, ?_, ?_⟩
  · unfold Ipv6Prefix.combine_with_interface_id
    rw [hparse]
  · intro i
    exact addrBit_spliceAddr p.addr iidA p.prefix_len i
  · intro hm h16
    show spliceByte p.prefix_len (p.addr ⟨p.prefix_len / 8, h16⟩)
        (iidA ⟨p.prefix_len / 8, h16⟩) (p.prefix_len / 8) = _
    unfold spliceByte
    rw [if_neg (lt_irrefl _), if_pos hm, if_pos rfl]
  · intro hm i
    show spliceByte p.prefix_len (p.addr i) (iidA i) i.val = _
    unfold spliceByte
    by_cases h : i.val < p.prefix_len / 8
    · rw [if_pos h, if_pos h]
    · rw [if_neg h, if_neg (by simp [hm]), if_neg h]

/-- Witness for C1 at the repository's own test vector: prefix
`2001:db8:1234:5678::/64` combined with token `::1`. -/
theorem claim1_witness :
    ∃ r, (Ipv6Prefix.mk (groupsToBytes [0x2001, 0xdb8, 0x1234, 0x5678, 0, 0, 0, 0])
        64).combine_with_interface_id "::1" = .ok r ∧
      (∀ i : Fin 128, addrBit r i =
        if i.val < 64 then
          addrBit (groupsToBytes [0x2001, 0xdb8, 0x1234, 0x5678, 0, 0, 0, 0]) i
        else addrBit (groupsToBytes [0, 0, 0, 0, 0, 0, 0, 1]) i) ∧
      ((64 : Nat) % 8 ≠ 0 →
        ∀ h16 : (64 : Nat) / 8 < 16,
          r ⟨64 / 8, h16⟩ =
            (groupsToBytes [0x2001, 0xdb8, 0x1234, 0x5678, 0, 0, 0, 0] ⟨64 / 8, h16⟩ &&&
                maskU8 (64 % 8)) |||
              (groupsToBytes [0, 0, 0, 0, 0, 0, 0, 1] ⟨64 / 8, h16⟩ &&&
                (255 ^^^ maskU8 (64 % 8)))) ∧
      ((64 : Nat) % 8 = 0 →
        ∀ i : Fin 16, r i =
          if i.val < 64 / 8 then
            groupsToBytes [0x2001, 0xdb8, 0x1234, 0x5678, 0, 0, 0, 0] i
          else groupsToBytes [0, 0, 0, 0, 0, 0, 0, 1] i) :=
  claim1_combine_bit_splice
    (Ipv6Prefix.mk (groupsToBytes [0x2001, 0xdb8, 0x1234, 0x5678, 0, 0, 0, 0]) 64)
    "::1" (groupsToBytes [0, 0, 0, 0, 0, 0, 0, 1]) (by decide) (by decide)

/-- Claim C3: `from_address` fails with an `Ipv6Parse` (address) error exactly
when the prefix length exceeds 128; for every length at most 128 it succeeds
and the stored base address has every bit at or beyond the prefix length
zeroed. -/
theorem claim3_from_address_normalizes (a : Bytes16) (len : Nat) :
    (128 < len →
      Ipv6Prefix.from_address a len =
        .error (.Ipv6Parse ("Invalid prefix length: " ++ toString len))) ∧
    (len ≤ 128 →
      ∃ p, Ipv6Prefix.from_address a len = .ok p ∧ p.prefix_len = len ∧
        ∀ i : Fin 128, len ≤ i.val → addrBit p.addr i = false) := by
  constructor
  · intro h
    unfold Ipv6Prefix.from_address
    rw [if_pos h]
  · intro h
    refine ⟨⟨network16 a len, len⟩, ?_, rfl, ?_⟩
    · unfold Ipv6Prefix.from_address
      rw [if_neg (by omega)]
    · intro i hge
      unfold addrBit network16
      show Nat.testBit (a ⟨i.val / 8, by omega⟩ &&& maskU8 (len - 8 * (i.val / 8)))
        (7 - i.val % 8) = false
      rw [Nat.testBit_and, testBit_maskU8 (show 7 - i.val % 8 < 8 by omega)]
      have hout : ¬ (8 - (len - 8 * (i.val / 8)) ≤ 7 - i.val % 8) := by omega
      simp [hout]

/-- Witness for C3: length 129 is rejected; length 64 succeeds with a
normalized base address. -/
theorem claim3_witness :
    (Ipv6Prefix.from_address (groupsToBytes [0x2001, 0xdb8, 0, 0, 0, 0, 0, 1]) 129 =
      .error (.Ipv6Parse ("Invalid prefix length: " ++ toString 129))) ∧
    (∃ p, Ipv6Prefix.from_address (groupsToBytes [0x2001, 0xdb8, 0, 0, 0, 0, 0, 1]) 64 =
        .ok p ∧ p.prefix_len = 64 ∧
      ∀ i : Fin 128, 64 ≤ i.val → addrBit p.addr i = false) :=
  ⟨(claim3_from_address_normalizes (groupsToBytes [0x2001, 0xdb8, 0, 0, 0, 0, 0, 1]) 129).1
      (by decide),
    (claim3_from_address_normalizes (groupsToBytes [0x2001, 0xdb8, 0, 0, 0, 0, 0, 1]) 64).2
      (by decide)⟩

/-- Claim C8: for every prefix length 0-128 and every address, combining the
derived network prefix with the interface-identifier token `::0` yields
exactly the normalized network prefix back. -/
theorem claim8_zero_iid_roundtrip (a : Bytes16) (len : Nat) (hlen : len ≤ 128)
    (p : Ipv6Prefix) (hp : Ipv6Prefix.from_address a len = .ok p) :
    p.combine_with_interface_id "::0" = .ok p.addr := by
  unfold Ipv6Prefix.from_address at hp
  rw [if_neg (by omega)] at hp
  injection hp with hp
  subst hp
  have hz : parse_interface_id "::0" = .ok (fun _ => 0) := by decide
  unfold Ipv6Prefix.combine_with_interface_id
  rw [hz]
  refine congrArg Except.ok (funext fun i => ?_)
  show spliceByte len (network16 a len i) 0 i.val = network16 a len i
  unfold spliceByte
  by_cases h1 : i.val < len / 8
  · rw [if_pos h1]
  · rw [if_neg h1]
    by_cases h2 : len % 8 = 0
    · rw [if_neg (by simp [h2])]
      show (0 : Nat) = a i &&& maskU8 (len - 8 * i.val)
      have hz8 : len - 8 * i.val = 0 := by omega
      rw [hz8, show maskU8 0 = 0 by decide, Nat.and_zero]
    · rw [if_pos h2]
      by_cases h3 : i.val = len / 8
      · rw [if_pos h3]
        show ((a i &&& maskU8 (len - 8 * i.val)) &&& maskU8 (len % 8)) |||
            (0 &&& (255 ^^^ maskU8 (len % 8))) = a i &&& maskU8 (len - 8 * i.val)
        have hmod : len - 8 * i.val = len % 8 := by omega
        rw [hmod, Nat.zero_and, Nat.or_zero, and_mask_self]
      · rw [if_neg h3]
        show (0 : Nat) = a i &&& maskU8 (len - 8 * i.val)
        have hz8 : len - 8 * i.val = 0 := by omega
        rw [hz8, show maskU8 0 = 0 by decide, Nat.and_zero]

/-- Witness for C8: round trip of `2001:db8:1234:5678::1` at length 64. -/
theorem claim8_witness :
    (Ipv6Prefix.mk (groupsToBytes [0x2001, 0xdb8, 0x1234, 0x5678, 0, 0, 0, 0])
        64).combine_with_interface_id "::0" =
      .ok (Ipv6Prefix.mk (groupsToBytes [0x2001, 0xdb8, 0x1234, 0x5678, 0, 0, 0, 0]) 64).addr :=
  claim8_zero_iid_roundtrip (groupsToBytes [0x2001, 0xdb8, 0x1234, 0x5678, 0, 0, 0, 1]) 64
    (by decide)
    (Ipv6Prefix.mk (groupsToBytes [0x2001, 0xdb8, 0x1234, 0x5678, 0, 0, 0, 0]) 64)
    (by decide)

/-- Claim C4: `parse_interface_id` attempts, in order, (1) the token as a
full address literal, (2) the token appended to the documentation-range
placeholder `2001:db8::`, (3) the token appended to the IPv4-mapped
placeholder `::ffff:`; it returns the first success, and when all three fail
it returns an `InvalidInterfaceId` error. -/
theorem claim4_three_stage_fallback (iid : String) :
    (∀ a, parseIpv6 iid = some a → parse_interface_id iid = .ok a) ∧
    (parseIpv6 iid = none →
      ∀ a, parseIpv6 ("2001:db8::" ++ iid) = some a → parse_interface_id iid = .ok a) ∧
    (parseIpv6 iid = none → parseIpv6 ("2001:db8::" ++ iid) = none →
      ∀ a, parseIpv6 ("::ffff:" ++ iid) = some a → parse_interface_id iid = .ok a) ∧
    (parseIpv6 iid = none → parseIpv6 ("2001:db8::" ++ iid) = none →
      parseIpv6 ("::ffff:" ++ iid) = none →
      parse_interface_id iid =
        .error (.InvalidInterfaceId ("Could not parse interface ID: " ++ iid))) := by
  refine ⟨?_, ?_, ?_, ?_⟩
  · intro a ha
    unfold parse_interface_id
    rw [ha]
  · intro h0 a ha
    unfold parse_interface_id
    rw [h0, ha]
  · intro h0 h1 a ha
    unfold parse_interface_id
    rw [h0, h1, ha]
  · intro h0 h1 h2
    unfold parse_interface_id
    rw [h0, h1, h2]

/-- Witness for C4: the bare hex token `1` is rejected as a full literal and
accepted under the documentation-range placeholder. -/
theorem claim4_witness :
    parse_interface_id "1" = .ok (groupsToBytes [0x2001, 0xdb8, 0, 0, 0, 0, 0, 1]) :=
  (claim4_three_stage_fallback "1").2.1 (by decide)
    (groupsToBytes [0x2001, 0xdb8, 0, 0, 0, 0, 0, 1]) (by decide)

/-- The loop never touches cache entries of hostnames outside the processed
host list. -/
theorem processHosts_cache_stable (pfx : Ipv6Prefix) (provider : String → Bytes16 → Bool)
    (fmt : Bytes16 → String) (now : Nat) :
    ∀ (hosts : List HostMapping) (cache : StateCache) (k : String),
      k ∉ hosts.map HostMapping.hostname →
      (processHosts pfx provider fmt now hosts cache).cache k = cache k := by
  intro hosts
  induction hosts with
  | nil => intro cache k _; rfl
  | cons host rest ih =>
    intro cache k hk
    rw [List.map_cons, List.mem_cons] at hk
    push_neg at hk
    obtain ⟨hk1, hk2⟩ := hk
    unfold processHosts
    split
    next e heq => exact ih cache k hk2
    next fa heq =>
      split
      next hch =>
        split
        next hpr =>
          show (processHosts pfx provider fmt now rest
              (StateCache.update cache host.hostname fa now)).cache k = cache k
          rw [ih (StateCache.update cache host.hostname fa now) k hk2]
          unfold StateCache.update
          rw [if_neg hk1]
        next hpr => exact ih cache k hk2
      next hch => exact ih cache k hk2

/-- Every provider call recorded by the loop belongs to a configured host and
carries exactly the address synthesized for that host from the shared
prefix. -/
theorem processHosts_calls_spec (pfx : Ipv6Prefix) (provider : String → Bytes16 → Bool)
    (fmt : Bytes16 → String) (now : Nat) :
    ∀ (hosts : List HostMapping) (cache : StateCache),
      ∀ pc ∈ (processHosts pfx provider fmt now hosts cache).calls,
        ∃ host, host ∈ hosts ∧ pc.1 = host.hostname ∧
          pfx.combine_with_interface_id host.interface_id = .ok pc.2 := by
  intro hosts
  induction hosts with
  | nil =>
    intro cache pc hpc
    exact absurd hpc (List.not_mem_nil pc)
  | cons host rest ih =>
    intro cache pc
    unfold processHosts
    split
    next e heq =>
      intro hpc
      obtain ⟨h2, hmem, h3, h4⟩ := ih cache pc hpc
      exact ⟨h2, List.mem_cons_of_mem _ hmem, h3, h4⟩
    next fa heq =>
      split
      next hch =>
        split
        next hpr =>
          intro hpc
          rcases List.mem_cons.mp hpc with h | h
          · subst h
            exact ⟨host, List.mem_cons_self _ _, rfl, heq⟩
          · obtain ⟨h2, hmem, h3, h4⟩ :=
              ih (StateCache.update cache host.hostname fa now) pc h
            exact ⟨h2, List.mem_cons_of_mem _ hmem, h3, h4⟩
        next hpr =>
          intro hpc
          rcases List.mem_cons.mp hpc with h | h
          · subst h
            exact ⟨host, List.mem_cons_self _ _, rfl, heq⟩
          · obtain ⟨h2, hmem, h3, h4⟩ := ih cache pc h
            exact ⟨h2, List.mem_cons_of_mem _ hmem, h3, h4⟩
      next hch =>
        intro hpc
        obtain ⟨h2, hmem, h3, h4⟩ := ih cache pc hpc
        exact ⟨h2, List.mem_cons_of_mem _ hmem, h3, h4⟩

/-- The `Error` message of the aggregation tail never coincides with the
prefix-extraction failure message. -/
theorem failed_update_msg_ne (s : String) :
    "Failed to update: " ++ s ≠ "Failed to extract prefix" := by
  intro hEq
  have hd := congrArg String.data hEq
  rw [String.data_append] at hd
  have h10 := congrArg (fun l => l[10]?) hd
  simp [List.getElem?_append] at h10

/-- Claim C5: `has_changed` is true exactly when the cache has no entry for
the hostname or the stored address differs (exact equality on the address
value); it is a pure read (embedded as a function of the cache).  After
`update h a`, `has_changed h a` is false and `has_changed h a'` is true for
every other address. -/
theorem claim5_cache_change_detection (cache : StateCache) (h : String)
    (a a' : Bytes16) (now : Nat) :
    (StateCache.has_changed cache h a = true ↔
      cache h = none ∨ ∃ st, cache h = some st ∧ st.ipv6_address ≠ a) ∧
    StateCache.has_changed (StateCache.update cache h a now) h a = false ∧
    (a' ≠ a → StateCache.has_changed (StateCache.update cache h a now) h a' = true) := by
  refine ⟨?_, ?_, ?_⟩
  · unfold StateCache.has_changed
    cases hc : cache h with
    | none => simp
    | some st => simp
  · unfold StateCache.has_changed StateCache.update
    simp
  · intro hne
    unfold StateCache.has_changed StateCache.update
    simp [hne.symm]

/-- Witness for C5 on a concrete one-entry cache. -/
theorem claim5_witness :
    (StateCache.has_changed (fun _ => none) "host.example.com" (fun _ => 0) = true ↔
      (fun _ => none : StateCache) "host.example.com" = none ∨
        ∃ st, (fun _ => none : StateCache) "host.example.com" = some st ∧
          st.ipv6_address ≠ (fun _ => 0)) ∧
    StateCache.has_changed
      (StateCache.update (fun _ => none) "host.example.com" (fun _ => 0) 7)
      "host.example.com" (fun _ => 0) = false ∧
    StateCache.has_changed
      (StateCache.update (fun _ => none) "host.example.com" (fun _ => 0) 7)
      "host.example.com" (fun _ => 1) = true :=
  ⟨(claim5_cache_change_detection (fun _ => none) "host.example.com"
      (fun _ => 0) (fun _ => 1) 7).1,
    (claim5_cache_change_detection (fun _ => none) "host.example.com"
      (fun _ => 0) (fun _ => 1) 7).2.1,
    (claim5_cache_change_detection (fun _ => none) "host.example.com"
      (fun _ => 0) (fun _ => 1) 7).2.2 (by decide)⟩

/-- Claim C6: a host whose provider call fails is classified `Failed`, the
loop continues with the remaining hosts, and the cache entry of that host is
left untouched, so the same request would treat the host as changed again
(idempotent retry). -/
theorem claim6_provider_failure_retry (pfx : Ipv6Prefix)
    (provider : String → Bytes16 → Bool) (fmt : Bytes16 → String) (now : Nat)
    (host : HostMapping) (rest : List HostMapping) (cache : StateCache) (a : Bytes16)
    (hcomb : pfx.combine_with_interface_id host.interface_id = .ok a)
    (hch : StateCache.has_changed cache host.hostname a = true)
    (hfail : provider host.hostname a = false) :
    (processHosts pfx provider fmt now (host :: rest) cache =
      { processHosts pfx provider fmt now rest cache with
          failed := host.hostname ::
            (processHosts pfx provider fmt now rest cache).failed,
          calls := (host.hostname, a) ::
            (processHosts pfx provider fmt now rest cache).calls }) ∧
    (host.hostname ∉ rest.map HostMapping.hostname →
      (processHosts pfx provider fmt now (host :: rest) cache).cache host.hostname =
          cache host.hostname ∧
      StateCache.has_changed
        (processHosts pfx provider fmt now (host :: rest) cache).cache
        host.hostname a = true) := by
  have hstep : processHosts pfx provider fmt now (host :: rest) cache =
      { processHosts pfx provider fmt now rest cache with
          failed := host.hostname ::
            (processHosts pfx provider fmt now rest cache).failed,
          calls := (host.hostname, a) ::
            (processHosts pfx provider fmt now rest cache).calls } := by
    conv_lhs => unfold processHosts
    split
    next e heq => rw [hcomb] at heq; exact Except.noConfusion heq
    next fa heq =>
      rw [hcomb] at heq
      injection heq with heq
      subst heq
      split
      next hch' =>
        split
        next hpr => rw [hfail] at hpr; exact Bool.noConfusion hpr
        next hpr => rfl
      next hch' => rw [hch] at hch'; exact absurd rfl hch'
  refine ⟨hstep, ?_⟩
  intro hmem
  have hcache : (processHosts pfx provider fmt now (host :: rest) cache).cache host.hostname
      = cache host.hostname := by
    rw [hstep]
    exact processHosts_cache_stable pfx provider fmt now rest cache host.hostname hmem
  refine ⟨hcache, ?_⟩
  unfold StateCache.has_changed at hch ⊢
  rw [hcache]
  exact hch

/-- Witness for C6: one configured host, changed address, failing provider. -/
theorem claim6_witness :
    (processHosts (Ipv6Prefix.mk (fun _ => 0) 64) (fun _ _ => false) (fun _ => "x") 0
        [HostMapping.mk "h1.example.com" "::1"] (fun _ => none) =
      { processHosts (Ipv6Prefix.mk (fun _ => 0) 64) (fun _ _ => false) (fun _ => "x") 0
          [] (fun _ => none) with
          failed := "h1.example.com" ::
            (processHosts (Ipv6Prefix.mk (fun _ => 0) 64) (fun _ _ => false) (fun _ => "x") 0
              [] (fun _ => none)).failed,
          calls := ("h1.example.com", groupsToBytes [0, 0, 0, 0, 0, 0, 0, 1]) ::
            (processHosts (Ipv6Prefix.mk (fun _ => 0) 64) (fun _ _ => false) (fun _ => "x") 0
              [] (fun _ => none)).calls }) ∧
    ("h1.example.com" ∉ ([] : List HostMapping).map HostMapping.hostname →
      (processHosts (Ipv6Prefix.mk (fun _ => 0) 64) (fun _ _ => false) (fun _ => "x") 0
        [HostMapping.mk "h1.example.com" "::1"] (fun _ => none)).cache "h1.example.com" =
          (fun _ => none : StateCache) "h1.example.com" ∧
      StateCache.has_changed
        (processHosts (Ipv6Prefix.mk (fun _ => 0) 64) (fun _ _ => false) (fun _ => "x") 0
          [HostMapping.mk "h1.example.com" "::1"] (fun _ => none)).cache
        "h1.example.com" (groupsToBytes [0, 0, 0, 0, 0, 0, 0, 1]) = true) :=
  claim6_provider_failure_retry (Ipv6Prefix.mk (fun _ => 0) 64) (fun _ _ => false)
    (fun _ => "x") 0 (HostMapping.mk "h1.example.com" "::1") [] (fun _ => none)
    (groupsToBytes [0, 0, 0, 0, 0, 0, 0, 1]) (by decide) (by decide) rfl

/-- Claim C7: a host whose synthesized address is unchanged is classified
`Unchanged` and skipped without any provider call (the loop result for the
remaining hosts is only extended by the `unchanged` entry, with the same
cache and the same call list); and an unparseable `prefix` parameter aborts
the whole request with a `911` response before any per-host processing: the
cache is returned unchanged and no provider call is made. -/
theorem claim7_skip_unchanged_abort_invalid :
    (∀ (pfx : Ipv6Prefix) (provider : String → Bytes16 → Bool) (fmt : Bytes16 → String)
        (now : Nat) (host : HostMapping) (rest : List HostMapping)
        (cache : StateCache) (a : Bytes16),
      pfx.combine_with_interface_id host.interface_id = .ok a →
      StateCache.has_changed cache host.hostname a = false →
      processHosts pfx provider fmt now (host :: rest) cache =
        { processHosts pfx provider fmt now rest cache with
            unchanged := (host.hostname ++ "=" ++ fmt a) ::
              (processHosts pfx provider fmt now rest cache).unchanged }) ∧
    (∀ (hosts : List HostMapping) (cache : StateCache)
        (provider : String → Bytes16 → Bool) (fmt : Bytes16 → String) (now : Nat)
        (prefixParam : String),
      parseIpv6 prefixParam = none →
      handle_update hosts cache provider fmt now prefixParam =
        (.Error "Invalid IPv6 address", cache, [])) := by
  constructor
  · intro pfx provider fmt now host rest cache a hcomb hch
    conv_lhs => unfold processHosts
    split
    next e heq => rw [hcomb] at heq; exact Except.noConfusion heq
    next fa heq =>
      rw [hcomb] at heq
      injection heq with heq
      subst heq
      split
      next hch' => rw [hch] at hch'; exact Bool.noConfusion hch'
      next hch' => rfl
  · intro hosts cache provider fmt now prefixParam hparse
    unfold handle_update extract_ipv6_address
    rw [hparse]

/-- Witness for C7: an unchanged host is skipped, and the malformed prefix
parameter `not-an-ip` aborts the request. -/
theorem claim7_witness :
    (processHosts (Ipv6Prefix.mk (fun _ => 0) 64) (fun _ _ => true) (fun _ => "x") 0
        (HostMapping.mk "h1.example.com" "::1" ::
          [HostMapping.mk "h2.example.com" "::2"])
        (StateCache.update (fun _ => none) "h1.example.com"
          (groupsToBytes [0, 0, 0, 0, 0, 0, 0, 1]) 3) =
      { processHosts (Ipv6Prefix.mk (fun _ => 0) 64) (fun _ _ => true) (fun _ => "x") 0
          [HostMapping.mk "h2.example.com" "::2"]
          (StateCache.update (fun _ => none) "h1.example.com"
            (groupsToBytes [0, 0, 0, 0, 0, 0, 0, 1]) 3) with
          unchanged := ("h1.example.com" ++ "=" ++ "x") ::
            (processHosts (Ipv6Prefix.mk (fun _ => 0) 64) (fun _ _ => true) (fun _ => "x") 0
              [HostMapping.mk "h2.example.com" "::2"]
              (StateCache.update (fun _ => none) "h1.example.com"
                (groupsToBytes [0, 0, 0, 0, 0, 0, 0, 1]) 3)).unchanged }) ∧
    (handle_update [HostMapping.mk "h1.example.com" "::1"] (fun _ => none)
        (fun _ _ => true) (fun _ => "x") 0 "not-an-ip" =
      (.Error "Invalid IPv6 address", (fun _ => none : StateCache), [])) :=
  ⟨claim7_skip_unchanged_abort_invalid.1 (Ipv6Prefix.mk (fun _ => 0) 64)
      (fun _ _ => true) (fun _ => "x") 0 (HostMapping.mk "h1.example.com" "::1")
      [HostMapping.mk "h2.example.com" "::2"]
      (StateCache.update (fun _ => none) "h1.example.com"
        (groupsToBytes [0, 0, 0, 0, 0, 0, 0, 1]) 3)
      (groupsToBytes [0, 0, 0, 0, 0, 0, 0, 1]) (by decide) (by decide),
    claim7_skip_unchanged_abort_invalid.2 [HostMapping.mk "h1.example.com" "::1"]
      (fun _ => none) (fun _ _ => true) (fun _ => "x") 0 "not-an-ip" (by decide)⟩

/-- Claim C9: on a parseable request the handler derives a single network
prefix from the client-supplied address with prefix length 64, and that one
prefix governs the whole request: the handler's result is the loop over all
configured hosts with that prefix, and every provider call carries an address
synthesized from that same prefix and the host's configured interface id. -/
theorem claim9_single_shared_prefix (hosts : List HostMapping) (cache : StateCache)
    (provider : String → Bytes16 → Bool) (fmt : Bytes16 → String) (now : Nat)
    (prefixParam : String) (client : Bytes16)
    (hparse : parseIpv6 prefixParam = some client) :
    ∃ pfx, Ipv6Prefix.extract_from_address client 64 = .ok pfx ∧
      pfx.prefix_len = 64 ∧
      handle_update hosts cache provider fmt now prefixParam =
        (aggregateResult (processHosts pfx provider fmt now hosts cache).updated
            (processHosts pfx provider fmt now hosts cache).unchanged
            (processHosts pfx provider fmt now hosts cache).failed,
          (processHosts pfx provider fmt now hosts cache).cache,
          (processHosts pfx provider fmt now hosts cache).calls) ∧
      (∀ pc ∈ (processHosts pfx provider fmt now hosts cache).calls,
        ∃ host, host ∈ hosts ∧ pc.1 = host.hostname ∧
          pfx.combine_with_interface_id host.interface_id = .ok pc.2) := by
  refine ⟨⟨network16 client 64, 64⟩, rfl, rfl, ?_, ?_⟩
  · unfold handle_update extract_ipv6_address
    rw [hparse]
    rfl
  · exact processHosts_calls_spec _ provider fmt now hosts cache

/-- Witness for C9: a two-host configuration under prefix parameter
`2001:db8:1234:5678::1`. -/
theorem claim9_witness :
    ∃ pfx, Ipv6Prefix.extract_from_address
        (groupsToBytes [0x2001, 0xdb8, 0x1234, 0x5678, 0, 0, 0, 1]) 64 = .ok pfx ∧
      pfx.prefix_len = 64 ∧
      handle_update
          (HostMapping.mk "h1.example.com" "::1" ::
            [HostMapping.mk "h2.example.com" "::2"])
          (fun _ => none) (fun _ _ => true) (fun _ => "x") 0
          "2001:db8:1234:5678::1" =
        (aggregateResult
            (processHosts pfx (fun _ _ => true) (fun _ => "x") 0
              (HostMapping.mk "h1.example.com" "::1" ::
                [HostMapping.mk "h2.example.com" "::2"]) (fun _ => none)).updated
            (processHosts pfx (fun _ _ => true) (fun _ => "x") 0
              (HostMapping.mk "h1.example.com" "::1" ::
                [HostMapping.mk "h2.example.com" "::2"]) (fun _ => none)).unchanged
            (processHosts pfx (fun _ _ => true) (fun _ => "x") 0
              (HostMapping.mk "h1.example.com" "::1" ::
                [HostMapping.mk "h2.example.com" "::2"]) (fun _ => none)).failed,
          (processHosts pfx (fun _ _ => true) (fun _ => "x") 0
            (HostMapping.mk "h1.example.com" "::1" ::
              [HostMapping.mk "h2.example.com" "::2"]) (fun _ => none)).cache,
          (processHosts pfx (fun _ _ => true) (fun _ => "x") 0
            (HostMapping.mk "h1.example.com" "::1" ::
              [HostMapping.mk "h2.example.com" "::2"]) (fun _ => none)).calls) ∧
      (∀ pc ∈ (processHosts pfx (fun _ _ => true) (fun _ => "x") 0
          (HostMapping.mk "h1.example.com" "::1" ::
            [HostMapping.mk "h2.example.com" "::2"]) (fun _ => none)).calls,
        ∃ host, host ∈ (HostMapping.mk "h1.example.com" "::1" ::
            [HostMapping.mk "h2.example.com" "::2"]) ∧ pc.1 = host.hostname ∧
          pfx.combine_with_interface_id host.interface_id = .ok pc.2) :=
  claim9_single_shared_prefix
    (HostMapping.mk "h1.example.com" "::1" :: [HostMapping.mk "h2.example.com" "::2"])
    (fun _ => none) (fun _ _ => true) (fun _ => "x") 0 "2001:db8:1234:5678::1"
    (groupsToBytes [0x2001, 0xdb8, 0x1234, 0x5678, 0, 0, 0, 1]) (by decide)

/-- Claim C10: `extract_from_address` with the fixed length 64 succeeds on
every address (`from_address` only fails above 128), so the handler's
`Failed to extract prefix` 911 branch is unreachable for every input. -/
theorem claim10_extract_branch_unreachable :
    (∀ a : Bytes16, Ipv6Prefix.extract_from_address a 64 = .ok ⟨network16 a 64, 64⟩) ∧
    (∀ (hosts : List HostMapping) (cache : StateCache)
        (provider : String → Bytes16 → Bool) (fmt : Bytes16 → String) (now : Nat)
        (prefixParam : String),
      (handle_update hosts cache provider fmt now prefixParam).1 ≠
        DynDns2Response.Error "Failed to extract prefix") := by
  constructor
  · intro a
    rfl
  · intro hosts cache provider fmt now prefixParam
    unfold handle_update
    cases hp : extract_ipv6_address prefixParam with
    | error e =>
      show DynDns2Response.Error "Invalid IPv6 address" ≠
        DynDns2Response.Error "Failed to extract prefix"
      intro h
      injection h with h
      exact absurd h (by decide)
    | ok client =>
      show aggregateResult
          (processHosts ⟨network16 client 64, 64⟩ provider fmt now hosts cache).updated
          (processHosts ⟨network16 client 64, 64⟩ provider fmt now hosts cache).unchanged
          (processHosts ⟨network16 client 64, 64⟩ provider fmt now hosts cache).failed ≠
        DynDns2Response.Error "Failed to extract prefix"
      unfold aggregateResult
      split_ifs with h1 h2 h3
      · exact fun h => DynDns2Response.noConfusion h
      · intro h
        injection h with h
        exact failed_update_msg_ne _ h
      · exact fun h => DynDns2Response.noConfusion h
      · exact fun h => DynDns2Response.noConfusion h

/-- Claim C2: the aggregate result over the processed hosts follows the
priority order of the handler tail — failures and updates give
`PartialSuccess(updated, failed)`; failures alone give `Error` over the
failed hostnames; updates alone give `Good` over exactly the updated hosts
(unchanged hosts omitted); otherwise `NoChg` over the unchanged hosts — and
each outcome renders with HTTP status 200 and a body beginning with
`partial success: `, `911 `, `good ` and `nochg ` respectively. -/
theorem claim2_aggregation_policy (u c f : List String) :
    (f ≠ [] → u ≠ [] →
      aggregateResult u c f = .PartialSuccess u f ∧
      (aggregateResult u c f).into_response =
        (200, "partial success: " ++ String.intercalate ", " u ++ " | failed: " ++
          String.intercalate ", " f)) ∧
    (f ≠ [] → u = [] →
      aggregateResult u c f =
        .Error ("Failed to update: " ++ String.intercalate ", " f) ∧
      (aggregateResult u c f).into_response =
        (200, "911 " ++ ("Failed to update: " ++ String.intercalate ", " f))) ∧
    (f = [] → u ≠ [] →
      aggregateResult u c f = .Good u ∧
      (aggregateResult u c f).into_response =
        (200, "good " ++ String.intercalate ", " u)) ∧
    (f = [] → u = [] →
      aggregateResult u c f = .NoChg c ∧
      (aggregateResult u c f).into_response =
        (200, "nochg " ++ String.intercalate ", " c)) := by
  refine ⟨?_, ?_, ?_, ?_⟩
  · intro hf hu
    have hf' : f.isEmpty = false := by cases f <;> simp_all
    have hu' : u.isEmpty = false := by cases u <;> simp_all
    unfold aggregateResult
    rw [hf', hu']
    simp [DynDns2Response.into_response]
  · intro hf hu
    have hf' : f.isEmpty = false := by cases f <;> simp_all
    subst hu
    unfold aggregateResult
    rw [hf']
    simp [DynDns2Response.into_response]
  · intro hf hu
    have hu' : u.isEmpty = false := by cases u <;> simp_all
    subst hf
    unfold aggregateResult
    rw [hu']
    simp [DynDns2Response.into_response]
  · intro hf hu
    subst hf
    subst hu
    unfold aggregateResult
    simp [DynDns2Response.into_response]

/-- Witness for C2 in the mixed-outcome case: one updated host and one failed
host give a partial-success 200 response. -/
theorem claim2_witness :
    aggregateResult ["h1.example.com=2001:db8::1"] [] ["h2.example.com"] =
        .PartialSuccess ["h1.example.com=2001:db8::1"] ["h2.example.com"] ∧
    (aggregateResult ["h1.example.com=2001:db8::1"] [] ["h2.example.com"]).into_response =
      (200, "partial success: " ++ String.intercalate ", " ["h1.example.com=2001:db8::1"] ++
        " | failed: " ++ String.intercalate ", " ["h2.example.com"]) :=
  (claim2_aggregation_policy ["h1.example.com=2001:db8::1"] [] ["h2.example.com"]).1
    (by decide) (by decide)

/-- Witness for C10 at a concrete request with an unparseable and a parseable
prefix parameter. -/
theorem claim10_witness :
    Ipv6Prefix.extract_from_address (fun _ => 0) 64 =
        .ok ⟨network16 (fun _ => 0) 64, 64⟩ ∧
    (handle_update [HostMapping.mk "h1.example.com" "::1"] (fun _ => none)
        (fun _ _ => true) (fun _ => "x") 0 "2001:db8::1").1 ≠
      DynDns2Response.Error "Failed to extract prefix" :=
  ⟨claim10_extract_branch_unreachable.1 (fun _ => 0),
    claim10_extract_branch_unreachable.2 [HostMapping.mk "h1.example.com" "::1"]
      (fun _ => none) (fun _ _ => true) (fun _ => "x") 0 "2001:db8::1"⟩

end Ddns6
